import Mathlib

/-!
A shallow embedding of `pkg/cmd/all-keywords/main.go`, the build-time
generator that reads keyword sections of `sql.y` from standard input and
emits the `Keywords` map together with the `GetKeywordID` lookup function.

The embedding follows the Go source line by line:

* `findHeaderMatch` embeds `keywordRE.FindString` for `^.*_keyword:`
  (leftmost-first, greedy: the longest prefix of the line ending in
  `_keyword:`, present exactly when the line contains `_keyword:`).
* `pipeFind` embeds `pipeRE.FindString` for `[A-Z].*` (the suffix of the
  line starting at the first ASCII uppercase letter, if any).
* `categories` embeds the Go map literal `categories`; a missing key
  yields `""`, exactly as a Go map lookup does.
* `processLine` embeds one iteration of the scan loop in `main`;
  `scanLines` embeds the loop; `scanInput` adds the `scanner.Err()`
  check that follows the loop.
* `sortEntries` embeds `sort.Slice` with `data[i].Match < data[j].Match`.
  `sort.Slice` is unstable, but the `seen` set makes all `Match` values
  distinct, so the sorted permutation is unique and insertion sort
  computes exactly it.
* `renderTemplate`, `getKeywordID` embed the rendering of the `tmpl`
  template (with its `-}}` whitespace trimming applied) and the meaning
  of the generated `switch` statement.
-/

namespace AllKeywords

/-- One element of the `data` slice of the generator: the Go struct
`entry\x7bLower, Match, Category string\x7d`. -/
structure Entry where
  Lower : String
  Match : String
  Category : String
deriving DecidableEq

/-- The scan-loop state of `main`: the `keyword` flag, the current
`category`, the `seen` set (a Go `map[string]bool`, modelled as the list
of strings inserted so far) and the accumulated `data` slice. -/
structure ScanState where
  keyword : Bool
  category : String
  seen : List String
  data : List Entry
deriving DecidableEq

/-- The state at the top of `main`: `keyword = false`, `category = ""`,
empty `seen`, empty `data`. -/
def initState : ScanState := ⟨false, "", [], []⟩

/-- The two fatal scan-phase errors: `log.Fatal("unknown keyword type:", match)`
and `log.Fatal("reading standard input:", err)`. -/
inductive Err where
  | unknownKeywordType (m : String)
  | readError (msg : String)
deriving DecidableEq

/-- The literal `_keyword:` of `keywordRE`, as a character list. -/
def headerPat : List Char := "_keyword:".data

/-- The embedding of `keywordRE.FindString line` for
`keywordRE = ^.*_keyword:`. The pattern is anchored and `.*` is greedy,
so the match (when the line contains `_keyword:` at all) is the longest
prefix of the line ending in `_keyword:`; we search the candidate end
positions from the largest down. -/
def findHeaderMatch (line : String) : Option String :=
  ((List.range (line.data.length + 1)).reverse.find?
      (fun i => headerPat.isSuffixOf (line.data.take i))).map
    (fun i => ⟨line.data.take i⟩)

/-- The character class `[A-Z]` of `pipeRE`: ASCII uppercase letters only. -/
def isUpperAZ (c : Char) : Bool := 'A' ≤ c && c ≤ 'Z'

/-- The embedding of `pipeRE.FindString line` for `pipeRE = [A-Z].*`:
leftmost-first matching starts at the first ASCII uppercase letter and
the greedy `.*` extends to the end of the line ( `.` never meets a
newline inside a scanner line). The no-match result `""` is modelled as
`none`. -/
def pipeFind (line : String) : Option String :=
  match line.data.findIdx? isUpperAZ with
  | some i => some ⟨line.data.drop i⟩
  | none => none

/-- The Go map literal `categories`; looking up a key that is absent
returns the zero value `""`, as in Go. -/
def categories (m : String) : String :=
  if m = "col_name_keyword:" then "C"
  else if m = "unreserved_keyword:" then "U"
  else if m = "type_func_name_keyword:" then "T"
  else if m = "cockroachdb_extra_type_func_name_keyword:" then "T"
  else if m = "reserved_keyword:" then "R"
  else if m = "cockroachdb_extra_reserved_keyword:" then "R"
  else ""

/-- The Unicode simple lowercase mapping applied by `unicode.ToLower`
to codepoints above the ASCII range, coalesced into ranges
`(lo, hi, stride, target)`: a codepoint `c` with `lo ≤ c ≤ hi` and
`(c - lo) % stride = 0` lowercases to `target + (c - lo)`; every other
codepoint is unchanged. Generated from the Unicode character database
(simple, unconditional mappings, as `unicode.CaseRanges` encodes them). -/
def unicodeLowerTable : List (Nat × Nat × Nat × Nat) := [
  (0xC0, 0xD6, 1, 0xE0), (0xD8, 0xDE, 1, 0xF8), (0x100, 0x12E, 2, 0x101),
  (0x130, 0x130, 1, 0x69), (0x132, 0x136, 2, 0x133), (0x139, 0x147, 2, 0x13A),
  (0x14A, 0x176, 2, 0x14B), (0x178, 0x178, 1, 0xFF), (0x179, 0x17D, 2, 0x17A),
  (0x181, 0x181, 1, 0x253), (0x182, 0x184, 2, 0x183), (0x186, 0x186, 1, 0x254),
  (0x187, 0x187, 1, 0x188), (0x189, 0x18A, 1, 0x256), (0x18B, 0x18B, 1, 0x18C),
  (0x18E, 0x18E, 1, 0x1DD), (0x18F, 0x18F, 1, 0x259), (0x190, 0x190, 1, 0x25B),
  (0x191, 0x191, 1, 0x192), (0x193, 0x193, 1, 0x260), (0x194, 0x194, 1, 0x263),
  (0x196, 0x196, 1, 0x269), (0x197, 0x197, 1, 0x268), (0x198, 0x198, 1, 0x199),
  (0x19C, 0x19C, 1, 0x26F), (0x19D, 0x19D, 1, 0x272), (0x19F, 0x19F, 1, 0x275),
  (0x1A0, 0x1A4, 2, 0x1A1), (0x1A6, 0x1A6, 1, 0x280), (0x1A7, 0x1A7, 1, 0x1A8),
  (0x1A9, 0x1A9, 1, 0x283), (0x1AC, 0x1AC, 1, 0x1AD), (0x1AE, 0x1AE, 1, 0x288),
  (0x1AF, 0x1AF, 1, 0x1B0), (0x1B1, 0x1B2, 1, 0x28A), (0x1B3, 0x1B5, 2, 0x1B4),
  (0x1B7, 0x1B7, 1, 0x292), (0x1B8, 0x1B8, 1, 0x1B9), (0x1BC, 0x1BC, 1, 0x1BD),
  (0x1C4, 0x1C4, 1, 0x1C6), (0x1C5, 0x1C5, 1, 0x1C6), (0x1C7, 0x1C7, 1, 0x1C9),
  (0x1C8, 0x1C8, 1, 0x1C9), (0x1CA, 0x1CA, 1, 0x1CC), (0x1CB, 0x1DB, 2, 0x1CC),
  (0x1DE, 0x1EE, 2, 0x1DF), (0x1F1, 0x1F1, 1, 0x1F3), (0x1F2, 0x1F4, 2, 0x1F3),
  (0x1F6, 0x1F6, 1, 0x195), (0x1F7, 0x1F7, 1, 0x1BF), (0x1F8, 0x21E, 2, 0x1F9),
  (0x220, 0x220, 1, 0x19E), (0x222, 0x232, 2, 0x223), (0x23A, 0x23A, 1, 0x2C65),
  (0x23B, 0x23B, 1, 0x23C), (0x23D, 0x23D, 1, 0x19A), (0x23E, 0x23E, 1, 0x2C66),
  (0x241, 0x241, 1, 0x242), (0x243, 0x243, 1, 0x180), (0x244, 0x244, 1, 0x289),
  (0x245, 0x245, 1, 0x28C), (0x246, 0x24E, 2, 0x247), (0x370, 0x372, 2, 0x371),
  (0x376, 0x376, 1, 0x377), (0x37F, 0x37F, 1, 0x3F3), (0x386, 0x386, 1, 0x3AC),
  (0x388, 0x38A, 1, 0x3AD), (0x38C, 0x38C, 1, 0x3CC), (0x38E, 0x38F, 1, 0x3CD),
  (0x391, 0x3A1, 1, 0x3B1), (0x3A3, 0x3AB, 1, 0x3C3), (0x3CF, 0x3CF, 1, 0x3D7),
  (0x3D8, 0x3EE, 2, 0x3D9), (0x3F4, 0x3F4, 1, 0x3B8), (0x3F7, 0x3F7, 1, 0x3F8),
  (0x3F9, 0x3F9, 1, 0x3F2), (0x3FA, 0x3FA, 1, 0x3FB), (0x3FD, 0x3FF, 1, 0x37B),
  (0x400, 0x40F, 1, 0x450), (0x410, 0x42F, 1, 0x430), (0x460, 0x480, 2, 0x461),
  (0x48A, 0x4BE, 2, 0x48B), (0x4C0, 0x4C0, 1, 0x4CF), (0x4C1, 0x4CD, 2, 0x4C2),
  (0x4D0, 0x52E, 2, 0x4D1), (0x531, 0x556, 1, 0x561), (0x10A0, 0x10C5, 1, 0x2D00),
  (0x10C7, 0x10C7, 1, 0x2D27), (0x10CD, 0x10CD, 1, 0x2D2D), (0x13A0, 0x13EF, 1, 0xAB70),
  (0x13F0, 0x13F5, 1, 0x13F8), (0x1C90, 0x1CBA, 1, 0x10D0), (0x1CBD, 0x1CBF, 1, 0x10FD),
  (0x1E00, 0x1E94, 2, 0x1E01), (0x1E9E, 0x1E9E, 1, 0xDF), (0x1EA0, 0x1EFE, 2, 0x1EA1),
  (0x1F08, 0x1F0F, 1, 0x1F00), (0x1F18, 0x1F1D, 1, 0x1F10), (0x1F28, 0x1F2F, 1, 0x1F20),
  (0x1F38, 0x1F3F, 1, 0x1F30), (0x1F48, 0x1F4D, 1, 0x1F40), (0x1F59, 0x1F5F, 2, 0x1F51),
  (0x1F68, 0x1F6F, 1, 0x1F60), (0x1F88, 0x1F8F, 1, 0x1F80), (0x1F98, 0x1F9F, 1, 0x1F90),
  (0x1FA8, 0x1FAF, 1, 0x1FA0), (0x1FB8, 0x1FB9, 1, 0x1FB0), (0x1FBA, 0x1FBB, 1, 0x1F70),
  (0x1FBC, 0x1FBC, 1, 0x1FB3), (0x1FC8, 0x1FCB, 1, 0x1F72), (0x1FCC, 0x1FCC, 1, 0x1FC3),
  (0x1FD8, 0x1FD9, 1, 0x1FD0), (0x1FDA, 0x1FDB, 1, 0x1F76), (0x1FE8, 0x1FE9, 1, 0x1FE0),
  (0x1FEA, 0x1FEB, 1, 0x1F7A), (0x1FEC, 0x1FEC, 1, 0x1FE5), (0x1FF8, 0x1FF9, 1, 0x1F78),
  (0x1FFA, 0x1FFB, 1, 0x1F7C), (0x1FFC, 0x1FFC, 1, 0x1FF3), (0x2126, 0x2126, 1, 0x3C9),
  (0x212A, 0x212A, 1, 0x6B), (0x212B, 0x212B, 1, 0xE5), (0x2132, 0x2132, 1, 0x214E),
  (0x2160, 0x216F, 1, 0x2170), (0x2183, 0x2183, 1, 0x2184), (0x24B6, 0x24CF, 1, 0x24D0),
  (0x2C00, 0x2C2F, 1, 0x2C30), (0x2C60, 0x2C60, 1, 0x2C61), (0x2C62, 0x2C62, 1, 0x26B),
  (0x2C63, 0x2C63, 1, 0x1D7D), (0x2C64, 0x2C64, 1, 0x27D), (0x2C67, 0x2C6B, 2, 0x2C68),
  (0x2C6D, 0x2C6D, 1, 0x251), (0x2C6E, 0x2C6E, 1, 0x271), (0x2C6F, 0x2C6F, 1, 0x250),
  (0x2C70, 0x2C70, 1, 0x252), (0x2C72, 0x2C72, 1, 0x2C73), (0x2C75, 0x2C75, 1, 0x2C76),
  (0x2C7E, 0x2C7F, 1, 0x23F), (0x2C80, 0x2CE2, 2, 0x2C81), (0x2CEB, 0x2CED, 2, 0x2CEC),
  (0x2CF2, 0x2CF2, 1, 0x2CF3), (0xA640, 0xA66C, 2, 0xA641), (0xA680, 0xA69A, 2, 0xA681),
  (0xA722, 0xA72E, 2, 0xA723), (0xA732, 0xA76E, 2, 0xA733), (0xA779, 0xA77B, 2, 0xA77A),
  (0xA77D, 0xA77D, 1, 0x1D79), (0xA77E, 0xA786, 2, 0xA77F), (0xA78B, 0xA78B, 1, 0xA78C),
  (0xA78D, 0xA78D, 1, 0x265), (0xA790, 0xA792, 2, 0xA791), (0xA796, 0xA7A8, 2, 0xA797),
  (0xA7AA, 0xA7AA, 1, 0x266), (0xA7AB, 0xA7AB, 1, 0x25C), (0xA7AC, 0xA7AC, 1, 0x261),
  (0xA7AD, 0xA7AD, 1, 0x26C), (0xA7AE, 0xA7AE, 1, 0x26A), (0xA7B0, 0xA7B0, 1, 0x29E),
  (0xA7B1, 0xA7B1, 1, 0x287), (0xA7B2, 0xA7B2, 1, 0x29D), (0xA7B3, 0xA7B3, 1, 0xAB53),
  (0xA7B4, 0xA7C2, 2, 0xA7B5), (0xA7C4, 0xA7C4, 1, 0xA794), (0xA7C5, 0xA7C5, 1, 0x282),
  (0xA7C6, 0xA7C6, 1, 0x1D8E), (0xA7C7, 0xA7C9, 2, 0xA7C8), (0xA7D0, 0xA7D0, 1, 0xA7D1),
  (0xA7D6, 0xA7D8, 2, 0xA7D7), (0xA7F5, 0xA7F5, 1, 0xA7F6), (0xFF21, 0xFF3A, 1, 0xFF41),
  (0x10400, 0x10427, 1, 0x10428), (0x104B0, 0x104D3, 1, 0x104D8), (0x10570, 0x1057A, 1, 0x10597),
  (0x1057C, 0x1058A, 1, 0x105A3), (0x1058C, 0x10592, 1, 0x105B3), (0x10594, 0x10595, 1, 0x105BB),
  (0x10C80, 0x10CB2, 1, 0x10CC0), (0x118A0, 0x118BF, 1, 0x118C0), (0x16E40, 0x16E5F, 1, 0x16E60),
  (0x1E900, 0x1E921, 1, 0x1E922)
]

/-- Range lookup in `unicodeLowerTable`; a codepoint covered by no
range is returned unchanged, as in `unicode.To`. -/
def lowerLookup (c : Nat) : List (Nat × Nat × Nat × Nat) → Nat
  | [] => c
  | (lo, hi, stride, tgt) :: rest =>
    if lo ≤ c ∧ c ≤ hi ∧ (c - lo) % stride = 0 then tgt + (c - lo)
    else lowerLookup c rest

/-- The embedding of `unicode.ToLower` as `strings.ToLower` applies it
to each rune: the ASCII fast path maps only `A` through `Z`, and every
codepoint above the ASCII range goes through the Unicode simple
lowercase mapping. -/
def goToLowerChar (c : Char) : Char :=
  if c.toNat ≤ 0x7F then
    if isUpperAZ c then Char.ofNat (c.toNat + 32) else c
  else
    Char.ofNat (lowerLookup c.toNat unicodeLowerTable)

/-- The embedding of `strings.ToLower`: `unicode.ToLower` on every
character of the string. -/
def goToLower (s : String) : String := ⟨s.data.map goToLowerChar⟩

/-- One iteration of the scan loop in `main`, processing `line`:
first the header test, then the empty-line test, then keyword
extraction guarded by `keyword && match != "" && !seen[match]`.
`log.Fatal` is modelled as an `Err` result. -/
def processLine (st : ScanState) (line : String) : Except Err ScanState :=
  match findHeaderMatch line with
  | some m =>
    if categories m = "" then .error (.unknownKeywordType m)
    else .ok { st with keyword := true, category := categories m }
  | none =>
    if line = "" then .ok { st with keyword := false }
    else
      match pipeFind line with
      | some m =>
        if st.keyword = true ∧ m ∉ st.seen then
          .ok { st with seen := m :: st.seen,
                        data := st.data ++ [⟨goToLower m, m, st.category⟩] }
        else .ok st
      | none => .ok st

/-- The scan loop of `main` over a list of delivered lines. -/
def scanLines (st : ScanState) : List String → Except Err ScanState
  | [] => .ok st
  | l :: ls =>
    match processLine st l with
    | .error e => .error e
    | .ok st' => scanLines st' ls

/-- The input stream as the scanner sees it: the lines it delivers, and
`none` or the message of the read error `scanner.Err()` reports after
the last delivered line. -/
structure Input where
  lines : List String
  readErr : Option String
deriving DecidableEq

/-- The whole scan phase of `main`: the loop over the delivered lines
followed by the `scanner.Err()` check. -/
def scanInput (inp : Input) : Except Err (List Entry) :=
  match scanLines initState inp.lines with
  | .error e => .error e
  | .ok st =>
    match inp.readErr with
    | some msg => .error (.readError msg)
    | none => .ok st.data

/-- The Go `<` comparison on strings: byte-wise lexicographic
comparison, which on valid UTF-8 agrees with codepoint-wise comparison
of the character lists. -/
def strLt : List Char → List Char → Bool
  | [], [] => false
  | [], _ :: _ => true
  | _ :: _, [] => false
  | a :: as, b :: bs => if a < b then true else if b < a then false else strLt as bs

/-- The `less` closure passed to `sort.Slice`:
`func(i, j int) bool { return data[i].Match < data[j].Match }`. -/
def goLess (e f : Entry) : Bool := strLt e.Match.data f.Match.data

/-- Insertion into a run of entries already sorted by `goLess`. -/
def insertEntry (e : Entry) : List Entry → List Entry
  | [] => [e]
  | f :: fs => if goLess f e then f :: insertEntry e fs else e :: f :: fs

/-- The embedding of the `sort.Slice` call on `data` with the `goLess`
comparison. All `Match` values in `data` are distinct (the `seen` set),
so the sorted permutation is unique and this insertion sort computes
exactly what the (unstable) `sort.Slice` produces. -/
def sortEntries : List Entry → List Entry
  | [] => []
  | e :: es => insertEntry e (sortEntries es)

/-- The text the template emits for one entry of the `Keywords` map
(after the `-}}` trimming of `{{range . -}}`). -/
def renderMapEntry (e : Entry) : String :=
  "\"" ++ e.Lower ++ "\": \x7b " ++ e.Match ++ ", \"" ++ e.Category ++ "\" \x7d,\n"

/-- The text the template emits for one `case` of `GetKeywordID`. -/
def renderCaseEntry (e : Entry) : String :=
  "case \"" ++ e.Lower ++ "\": return " ++ e.Match ++ "\n\t"

/-- The fixed template text before the `Keywords` entries. -/
def tmplHead : String :=
  "// Code generated by cmd/all-keywords. DO NOT EDIT.\n" ++
  "// GENERATED FILE DO NOT EDIT\n\npackage lex\n\n" ++
  "var Keywords = map[string]struct \x7b\n\tTok int\n\tCat string\n\x7d\x7b\n"

/-- The fixed template text between the `Keywords` entries and the
`case` arms of `GetKeywordID`. -/
def tmplMid : String :=
  "\x7d\n\n// GetKeywordID returns the lex id of the SQL keyword k or IDENT if k is\n" ++
  "// not a keyword.\nfunc GetKeywordID(k string) int32 \x7b\n" ++
  "\t// The previous implementation generated a map that did a string ->\n" ++
  "\t// id lookup. Various ideas were benchmarked and the implementation below\n" ++
  "\t// was the fastest of those, between 3% and 10% faster (at parsing, so the\n" ++
  "\t// scanning speedup is even more) than the map implementation.\n" ++
  "\tswitch k \x7b\n\t"

/-- The fixed template text after the `case` arms. -/
def tmplTail : String := "default: return IDENT\n\t\x7d\n\x7d\n"

/-- The embedding of `template.Execute` of `tmpl` on the sorted data. -/
def renderTemplate (data : List Entry) : String :=
  tmplHead ++ String.join (data.map renderMapEntry) ++
    tmplMid ++ String.join (data.map renderCaseEntry) ++ tmplTail

/-- The meaning of the generated `GetKeywordID` function: the first
`case` arm whose string equals `k` returns the token identifier of that
entry; the `default` arm returns `IDENT`. -/
def getKeywordID (entries : List Entry) (k : String) : String :=
  match entries.find? (fun e => e.Lower == k) with
  | some e => e.Match
  | none => "IDENT"

/-- The whole program: the result of the run paired with the bytes
written to standard output. Scanning (including the `scanner.Err()`
check) happens strictly before `template.Execute` writes anything. -/
def run (inp : Input) : Except Err Unit × String :=
  match scanInput inp with
  | .error e => (.error e, "")
  | .ok data => (.ok (), renderTemplate (sortEntries data))

/-- Less-or-equal in terms of the `sort.Slice` comparison: `a` precedes
or equals `b` when `b` is not less than `a`. -/
def EntLe (a b : Entry) : Prop := goLess b a = false

/-- The invariant of the scan loop: `Match` values in `data` are
pairwise distinct, every recorded `Match` has been put into `seen`, and
every `Lower` field is the lowercased `Match`. -/
def Inv (st : ScanState) : Prop :=
  (st.data.map Entry.Match).Nodup ∧
    ∀ e ∈ st.data, e.Match ∈ st.seen ∧ e.Lower = goToLower e.Match

/-- The six-line end-to-end example input of the specification. -/
def exampleInput : Input :=
  ⟨["reserved_keyword:", "SELECT", "WHERE", "", "unreserved_keyword:", "NAME"], none⟩

/-! ### Order theory for `strLt` (Go string comparison) -/

theorem strLt_irrefl : ∀ l, strLt l l = false
  | [] => rfl
  | a :: as => by
    unfold strLt
    simp only [if_neg (lt_irrefl a)]
    exact strLt_irrefl as

theorem strLt_asymm : ∀ l1 l2, strLt l1 l2 = true → strLt l2 l1 = false
  | [], [] => by intro h; cases h
  | [], _ :: _ => by intro _; rfl
  | _ :: _, [] => by intro h; cases h
  | a :: as, b :: bs => by
    unfold strLt
    by_cases hab : a < b
    · simp only [if_pos hab, if_neg (asymm hab)]
      intro _
      trivial
    · by_cases hba : b < a
      · simp only [if_neg hab, if_pos hba]
        intro h; cases h
      · simp only [if_neg hab, if_neg hba]
        exact strLt_asymm as bs

theorem strLt_conn : ∀ l1 l2, strLt l1 l2 = false → strLt l2 l1 = false → l1 = l2
  | [], [] => by intro _ _; rfl
  | [], _ :: _ => by intro h _; cases h
  | _ :: _, [] => by intro _ h; cases h
  | a :: as, b :: bs => by
    unfold strLt
    by_cases hab : a < b
    · simp only [if_pos hab]
      intro h _; cases h
    · by_cases hba : b < a
      · simp only [if_neg hab, if_pos hba]
        intro _ h; cases h
      · simp only [if_neg hab, if_neg hba]
        intro h1 h2
        rw [le_antisymm (not_lt.mp hba) (not_lt.mp hab), strLt_conn as bs h1 h2]

theorem strLt_trans : ∀ l1 l2 l3, strLt l1 l2 = true → strLt l2 l3 = true → strLt l1 l3 = true
  | l1, [], l3 => by
    intro h1 _
    cases l1 <;> cases h1
  | l1, _ :: _, [] => by
    intro _ h2
    cases h2
  | [], b :: bs, c :: cs => by intro _ _; rfl
  | a :: as, b :: bs, c :: cs => by
    unfold strLt
    intro h1 h2
    by_cases hab : a < b
    · by_cases hbc : b < c
      · simp only [if_pos (lt_trans hab hbc)]
      · by_cases hcb : c < b
        · simp only [if_neg hbc, if_pos hcb] at h2
          cases h2
        · have hbceq : b = c := le_antisymm (not_lt.mp hcb) (not_lt.mp hbc)
          have hac : a < c := hbceq ▸ hab
          simp only [if_pos hac]
    · by_cases hba : b < a
      · simp only [if_neg hab, if_pos hba] at h1
        cases h1
      · have habeq : a = b := le_antisymm (not_lt.mp hba) (not_lt.mp hab)
        simp only [if_neg hab, if_neg hba] at h1
        by_cases hbc : b < c
        · have hac : a < c := habeq ▸ hbc
          simp only [if_pos hac]
        · by_cases hcb : c < b
          · simp only [if_neg hbc, if_pos hcb] at h2
            cases h2
          · simp only [if_neg hbc, if_neg hcb] at h2
            have hac : ¬ a < c := habeq ▸ hbc
            have hca : ¬ c < a := habeq ▸ hcb
            simp only [if_neg hac, if_neg hca]
            exact strLt_trans as bs cs h1 h2

theorem entLe_refl (a : Entry) : EntLe a a := strLt_irrefl a.Match.data

theorem entLe_trans {a b c : Entry} (h1 : EntLe a b) (h2 : EntLe b c) : EntLe a c := by
  unfold EntLe goLess at h1 h2 ⊢
  cases hlt : strLt c.Match.data a.Match.data with
  | false => rfl
  | true =>
    exfalso
    cases hm : strLt a.Match.data b.Match.data with
    | true =>
      have := strLt_trans _ _ _ hlt hm
      rw [this] at h2
      cases h2
    | false =>
      have heq := strLt_conn _ _ hm h1
      rw [← heq] at h2
      rw [hlt] at h2
      cases h2

/-! ### Insertion sort lemmas -/

theorem mem_insertEntry (e x : Entry) : ∀ l, x ∈ insertEntry e l → x = e ∨ x ∈ l
  | [] => by
    intro h
    unfold insertEntry at h
    rw [List.mem_singleton] at h
    exact Or.inl h
  | f :: fs => by
    unfold insertEntry
    by_cases h : goLess f e = true
    · rw [if_pos h]
      intro hx
      rcases List.mem_cons.mp hx with hxf | hxr
      · exact Or.inr (hxf ▸ List.mem_cons_self f fs)
      · rcases mem_insertEntry e x fs hxr with h1 | h2
        · exact Or.inl h1
        · exact Or.inr (List.mem_cons_of_mem f h2)
    · rw [if_neg h]
      intro hx
      exact List.mem_cons.mp hx

theorem insertEntry_perm (e : Entry) : ∀ l, List.Perm (insertEntry e l) (e :: l)
  | [] => List.Perm.refl _
  | f :: fs => by
    unfold insertEntry
    by_cases h : goLess f e = true
    · rw [if_pos h]
      exact (List.Perm.cons f (insertEntry_perm e fs)).trans (List.Perm.swap e f fs)
    · rw [if_neg h]

theorem sortEntries_perm : ∀ l, List.Perm (sortEntries l) l
  | [] => List.Perm.refl _
  | e :: es => (insertEntry_perm e (sortEntries es)).trans (List.Perm.cons e (sortEntries_perm es))

theorem pairwise_insertEntry (e : Entry) :
    ∀ l, List.Pairwise EntLe l → List.Pairwise EntLe (insertEntry e l)
  | [], _ => List.pairwise_singleton EntLe e
  | f :: fs, h => by
    rw [List.pairwise_cons] at h
    obtain ⟨hf, hfs⟩ := h
    unfold insertEntry
    by_cases hc : goLess f e = true
    · rw [if_pos hc, List.pairwise_cons]
      constructor
      · intro x hx
        rcases mem_insertEntry e x fs hx with rfl | hxm
        · exact strLt_asymm _ _ hc
        · exact hf x hxm
      · exact pairwise_insertEntry e fs hfs
    · rw [if_neg hc, List.pairwise_cons]
      have hc' : goLess f e = false := by
        cases hgl : goLess f e with
        | false => rfl
        | true => exact absurd hgl hc
      constructor
      · intro x hx
        rcases List.mem_cons.mp hx with rfl | hxm
        · exact hc'
        · exact entLe_trans hc' (hf x hxm)
      · exact List.pairwise_cons.mpr ⟨hf, hfs⟩

theorem sortEntries_pairwise_le : ∀ l, List.Pairwise EntLe (sortEntries l)
  | [] => List.Pairwise.nil
  | e :: es => pairwise_insertEntry e _ (sortEntries_pairwise_le es)

theorem string_data_inj : ∀ {s t : String}, s.data = t.data → s = t
  | ⟨d1⟩, ⟨d2⟩, h => by
    have h' : d1 = d2 := h
    rw [h']

/-! ### Scan-loop invariants -/

theorem inv_init : Inv initState := by
  constructor
  · exact List.nodup_nil
  · intro e he
    cases he

theorem processLine_ok (st : ScanState) (line : String) (st' : ScanState)
    (h : processLine st line = .ok st') :
    (∃ t, st'.data = st.data ++ t) ∧ (∀ m ∈ st.seen, m ∈ st'.seen) ∧ (Inv st → Inv st') := by
  unfold processLine at h
  split at h
  · split at h
    · cases h
    · cases h
      exact ⟨⟨[], (List.append_nil _).symm⟩, fun m hm => hm, fun hi => hi⟩
  · split at h
    · cases h
      exact ⟨⟨[], (List.append_nil _).symm⟩, fun m hm => hm, fun hi => hi⟩
    · split at h
      · split at h
        · rename_i hline m hpipe hcond
          cases h
          refine ⟨⟨[⟨goToLower m, m, st.category⟩], rfl⟩, ?_, ?_⟩
          · intro x hx
            exact List.mem_cons_of_mem m hx
          · rintro ⟨hnd, hmem⟩
            constructor
            · rw [List.map_append]
              refine List.Nodup.append hnd (List.nodup_singleton _) ?_
              intro a ha hb
              simp only [List.map_cons, List.map_nil, List.mem_singleton] at hb
              subst hb
              rcases List.mem_map.mp ha with ⟨e, he, hem⟩
              exact hcond.2 (hem ▸ (hmem e he).1)
            · intro e he
              rcases List.mem_append.mp he with h1 | h2
              · obtain ⟨h3, h4⟩ := hmem e h1
                exact ⟨List.mem_cons_of_mem m h3, h4⟩
              · rw [List.mem_singleton] at h2
                subst h2
                exact ⟨List.mem_cons_self m st.seen, rfl⟩
        · cases h
          exact ⟨⟨[], (List.append_nil _).symm⟩, fun m hm => hm, fun hi => hi⟩
      · cases h
        exact ⟨⟨[], (List.append_nil _).symm⟩, fun m hm => hm, fun hi => hi⟩

theorem scanLines_ok : ∀ (ls : List String) (st st' : ScanState),
    scanLines st ls = .ok st' →
    (∃ t, st'.data = st.data ++ t) ∧ (∀ m ∈ st.seen, m ∈ st'.seen) ∧ (Inv st → Inv st')
  | [], st, st', h => by
    cases h
    exact ⟨⟨[], (List.append_nil _).symm⟩, fun m hm => hm, fun hi => hi⟩
  | l :: ls, st, st', h => by
    unfold scanLines at h
    split at h
    · cases h
    · rename_i st1 heq
      obtain ⟨⟨t1, hd1⟩, hs1, hi1⟩ := processLine_ok st l st1 heq
      obtain ⟨⟨t2, hd2⟩, hs2, hi2⟩ := scanLines_ok ls st1 st' h
      exact ⟨⟨t1 ++ t2, by rw [hd2, hd1, List.append_assoc]⟩,
        fun m hm => hs2 m (hs1 m hm), fun hi => hi2 (hi1 hi)⟩

theorem scanLines_append (l1 l2 : List String) : ∀ st : ScanState,
    scanLines st (l1 ++ l2) =
      match scanLines st l1 with
      | .error e => .error e
      | .ok st' => scanLines st' l2 := by
  induction l1 with
  | nil => intro st; rfl
  | cons l ls ih =>
    intro st
    simp only [List.cons_append, scanLines]
    cases hp : processLine st l with
    | error e => rfl
    | ok st1 => exact ih st1

/-! ### Characterization of the two regular expressions -/

theorem findHeaderMatch_isSome_iff (line : String) :
    (findHeaderMatch line).isSome = true ↔ ∃ s r, line.data = s ++ headerPat ++ r := by
  unfold findHeaderMatch
  constructor
  · intro h
    cases hf : (List.range (line.data.length + 1)).reverse.find?
        (fun i => headerPat.isSuffixOf (line.data.take i)) with
    | none => rw [hf] at h; cases h
    | some i =>
      have hp : headerPat.isSuffixOf (line.data.take i) = true := by
        have hq := List.find?_some hf
        exact hq
      rw [List.isSuffixOf_iff_suffix] at hp
      obtain ⟨s, hs⟩ := hp
      refine ⟨s, line.data.drop i, ?_⟩
      rw [hs, List.take_append_drop]
  · rintro ⟨s, r, hsr⟩
    cases hf : (List.range (line.data.length + 1)).reverse.find?
        (fun i => headerPat.isSuffixOf (line.data.take i)) with
    | some i => rfl
    | none =>
      exfalso
      rw [List.find?_eq_none] at hf
      have hmem : (s ++ headerPat).length ∈ (List.range (line.data.length + 1)).reverse := by
        rw [List.mem_reverse, List.mem_range, hsr]
        simp only [List.length_append]
        omega
      have hp : headerPat.isSuffixOf (line.data.take (s ++ headerPat).length) = true := by
        rw [hsr, List.take_left, List.isSuffixOf_iff_suffix]
        exact ⟨s, rfl⟩
      exact hf _ hmem hp

theorem pipeFind_eq_none_iff (line : String) :
    pipeFind line = none ↔ ∀ c ∈ line.data, isUpperAZ c = false := by
  unfold pipeFind
  constructor
  · intro h
    cases hf : line.data.findIdx? isUpperAZ with
    | some i => rw [hf] at h; cases h
    | none => exact fun c hc => List.findIdx?_eq_none_iff.mp hf c hc
  · intro hall
    rw [List.findIdx?_eq_none_iff.mpr hall]

theorem findIdx?_drop_eq_dropWhile (p : Char → Bool) :
    ∀ (t : List Char) (i : Nat), t.findIdx? p = some i →
      t.drop i = t.dropWhile (fun c => !p c)
  | [], i, h => by cases h
  | a :: as, i, h => by
    rw [List.findIdx?_cons] at h
    cases hpa : p a with
    | true =>
      rw [if_pos hpa] at h
      injection h with h
      subst h
      simp [List.dropWhile_cons, hpa]
    | false =>
      rw [if_neg (by simp [hpa] : ¬ p a = true), List.findIdx?_succ] at h
      cases hf : as.findIdx? p with
      | none => rw [hf] at h; cases h
      | some j =>
        rw [hf] at h
        injection h with h
        subst h
        simp only [List.drop_succ_cons, List.dropWhile_cons, hpa]
        simp only [Bool.not_false, if_pos]
        exact findIdx?_drop_eq_dropWhile p as j hf

theorem pipeFind_spec (line : String) (m : String) (h : pipeFind line = some m) :
    m.data = line.data.dropWhile (fun c => !isUpperAZ c) := by
  unfold pipeFind at h
  cases hf : line.data.findIdx? isUpperAZ with
  | none => rw [hf] at h; cases h
  | some i =>
    rw [hf] at h
    injection h with h
    subst h
    exact findIdx?_drop_eq_dropWhile isUpperAZ line.data i hf

/-- A non-empty non-header line with no ASCII uppercase letter leaves
the scan state fully unchanged. -/
theorem processLine_no_upper (st : ScanState) (line : String)
    (hh : findHeaderMatch line = none) (hne : line ≠ "")
    (hup : ∀ c ∈ line.data, isUpperAZ c = false) :
    processLine st line = .ok st := by
  have hp : pipeFind line = none := (pipeFind_eq_none_iff line).mpr hup
  unfold processLine
  simp only [hh, hp, if_neg hne]

/-! ### The claims -/

/-- C1: on the six-line example input the scanner collects exactly
`(select, SELECT, R)`, `(where, WHERE, R)`, `(name, NAME, U)`; sorting
orders them NAME, SELECT, WHERE ascending by `Match`; and the generated
lookup function maps `select`, `where`, `name` to their identifiers and
anything else (such as `foobar`) to the sentinel `IDENT`. -/
theorem example_end_to_end :
    scanInput exampleInput =
      .ok [⟨"select", "SELECT", "R"⟩, ⟨"where", "WHERE", "R"⟩, ⟨"name", "NAME", "U"⟩]
    ∧ sortEntries [⟨"select", "SELECT", "R"⟩, ⟨"where", "WHERE", "R"⟩, ⟨"name", "NAME", "U"⟩]
        = [⟨"name", "NAME", "U"⟩, ⟨"select", "SELECT", "R"⟩, ⟨"where", "WHERE", "R"⟩]
    ∧ getKeywordID [⟨"name", "NAME", "U"⟩, ⟨"select", "SELECT", "R"⟩,
        ⟨"where", "WHERE", "R"⟩] "select" = "SELECT"
    ∧ getKeywordID [⟨"name", "NAME", "U"⟩, ⟨"select", "SELECT", "R"⟩,
        ⟨"where", "WHERE", "R"⟩] "where" = "WHERE"
    ∧ getKeywordID [⟨"name", "NAME", "U"⟩, ⟨"select", "SELECT", "R"⟩,
        ⟨"where", "WHERE", "R"⟩] "name" = "NAME"
    ∧ getKeywordID [⟨"name", "NAME", "U"⟩, ⟨"select", "SELECT", "R"⟩,
        ⟨"where", "WHERE", "R"⟩] "foobar" = "IDENT" := by
  refine ⟨?_, ?_, ?_, ?_, ?_, ?_⟩ <;> rfl

/-- C2: for every input accepted by the scan phase, the entry list
handed to the code generator is strictly ascending in the byte-wise
lexicographic order of the original-case `Match` fields. -/
theorem generator_output_sorted (inp : Input) (data : List Entry)
    (h : scanInput inp = .ok data) :
    List.Pairwise (fun a b => strLt a.Match.data b.Match.data = true) (sortEntries data) := by
  have hnodup : (data.map Entry.Match).Nodup := by
    unfold scanInput at h
    cases hs : scanLines initState inp.lines with
    | error e => rw [hs] at h; cases h
    | ok st =>
      rw [hs] at h
      cases hr : inp.readErr with
      | some msg => rw [hr] at h; cases h
      | none =>
        rw [hr] at h
        injection h with h
        subst h
        exact ((scanLines_ok inp.lines initState st hs).2.2 inv_init).1
  have hperm : List.Perm (sortEntries data) data := sortEntries_perm data
  have hnodup' : ((sortEntries data).map Entry.Match).Nodup :=
    ((hperm.map Entry.Match).nodup_iff).mpr hnodup
  have hle := sortEntries_pairwise_le data
  have hpw : List.Pairwise (fun a b => a ≠ b) ((sortEntries data).map Entry.Match) := hnodup'
  have hne : List.Pairwise (fun a b : Entry => a.Match ≠ b.Match) (sortEntries data) :=
    List.pairwise_map.mp hpw
  refine List.Pairwise.imp ?_ (hle.and hne)
  intro a b hab
  obtain ⟨h1, h2⟩ := hab
  cases hlt : strLt a.Match.data b.Match.data with
  | true => rfl
  | false =>
    exfalso
    exact h2 (string_data_inj (strLt_conn _ _ hlt h1))

/-- C3: `Match` values in the final entry list are pairwise distinct,
and entries recorded by a prefix of the input persist unchanged (so the
first occurrence of a `Match` fixes its entry, including its category,
and later occurrences are skipped without error). -/
theorem match_dedup_first_wins (l1 l2 : List String) (st1 st2 : ScanState)
    (h1 : scanLines initState l1 = .ok st1)
    (h2 : scanLines initState (l1 ++ l2) = .ok st2) :
    (st2.data.map Entry.Match).Nodup ∧ ∃ t, st2.data = st1.data ++ t := by
  have happ := scanLines_append l1 l2 initState
  rw [h1] at happ
  rw [h2] at happ
  have hmono := scanLines_ok l2 st1 st2 happ.symm
  have hinv := (scanLines_ok (l1 ++ l2) initState st2 h2).2.2 inv_init
  exact ⟨hinv.1, hmono.1⟩

/-- C4 counterexample: the `seen` set deduplicates by original-case
`Match`, not by `Lower`, so an input containing both `SELECT` and
`Select` produces two entries whose `Lower` key is `select`. -/
theorem lower_keys_can_collide :
    scanInput ⟨["reserved_keyword:", "SELECT", "Select"], none⟩ =
      .ok [⟨"select", "SELECT", "R"⟩, ⟨"select", "Select", "R"⟩]
    ∧ (sortEntries [⟨"select", "SELECT", "R"⟩, ⟨"select", "Select", "R"⟩]).map Entry.Lower
        = ["select", "select"]
    ∧ ¬ (["select", "select"] : List String).Nodup :=
  ⟨by rfl, by rfl, by decide⟩

/-- C4 (amended): the generated lowercase keys are unique whenever no
two distinct recorded `Match` values share the same lowercase form (in
particular for the usual all-uppercase token identifiers). -/
theorem lower_keys_unique_of_case_distinct (inp : Input) (data : List Entry)
    (h : scanInput inp = .ok data)
    (hinj : ∀ e1 ∈ data, ∀ e2 ∈ data,
      goToLower e1.Match = goToLower e2.Match → e1.Match = e2.Match) :
    ((sortEntries data).map Entry.Lower).Nodup := by
  obtain ⟨st, hs, hdata⟩ : ∃ st, scanLines initState inp.lines = .ok st ∧ data = st.data := by
    unfold scanInput at h
    cases hs : scanLines initState inp.lines with
    | error e => rw [hs] at h; cases h
    | ok st =>
      rw [hs] at h
      cases hr : inp.readErr with
      | some msg => rw [hr] at h; cases h
      | none =>
        rw [hr] at h
        injection h with h
        exact ⟨st, rfl, h.symm⟩
  have hinvst := (scanLines_ok inp.lines initState st hs).2.2 inv_init
  subst hdata
  obtain ⟨hnodup, hmem⟩ := hinvst
  have hminj := List.inj_on_of_nodup_map hnodup
  have hlinj : ∀ x ∈ st.data, ∀ y ∈ st.data, x.Lower = y.Lower → x = y := by
    intro x hx y hy hl
    rw [(hmem x hx).2, (hmem y hy).2] at hl
    exact hminj hx hy (hinj x hx y hy hl)
  have hnd : st.data.Nodup := hnodup.of_map
  have hlower : (st.data.map Entry.Lower).Nodup := List.Nodup.map_on hlinj hnd
  exact (((sortEntries_perm st.data).map Entry.Lower).nodup_iff).mpr hlower

/-- C5 counterexample: the header regular expression is not anchored at
the end of the line, so `reserved_keyword: foo` — which does not end in
`_keyword:` — still matches, and the matched text `reserved_keyword:`
opens a reserved section. -/
theorem header_match_without_line_ending :
    headerPat.isSuffixOf "reserved_keyword: foo".data = false
    ∧ findHeaderMatch "reserved_keyword: foo" = some "reserved_keyword:"
    ∧ processLine initState "reserved_keyword: foo" =
        .ok { initState with keyword := true, category := "R" } :=
  ⟨by rfl, by rfl, by rfl⟩

/-- C5 (amended): a line matches the header pattern exactly when it
contains `_keyword:` as a substring (the matched text being the longest
prefix ending in `_keyword:`); such a line sets the section flag and
resolves the category through the fixed table, and an unknown matched
header terminates the run with a fatal error naming it. -/
theorem header_detection (st : ScanState) (line : String) :
    ((findHeaderMatch line).isSome = true ↔ ∃ s r, line.data = s ++ headerPat ++ r)
    ∧ ∀ m, findHeaderMatch line = some m →
        (categories m ≠ "" →
          processLine st line = .ok { st with keyword := true, category := categories m })
        ∧ (categories m = "" → processLine st line = .error (.unknownKeywordType m)) := by
  refine ⟨findHeaderMatch_isSome_iff line, ?_⟩
  intro m hm
  constructor
  · intro hc
    unfold processLine
    simp only [hm, if_neg hc]
  · intro hc
    unfold processLine
    simp only [hm, if_pos hc]

/-- C6: on a non-empty non-header line inside or outside a section, the
token the scanner may record is exactly the suffix of the line starting
at its first ASCII uppercase letter; a recorded entry carries that token
as `Match`, its lowercase form as `Lower` and the current category; a
line with no such token records nothing and changes nothing. -/
theorem token_extraction (st : ScanState) (line : String) (st' : ScanState)
    (hh : findHeaderMatch line = none) (hne : line ≠ "")
    (hp : processLine st line = .ok st') :
    (pipeFind line = none → st' = st)
    ∧ ∀ m, pipeFind line = some m →
        m.data = line.data.dropWhile (fun c => !isUpperAZ c)
        ∧ (st.keyword = true → m ∉ st.seen →
            st'.data = st.data ++ [⟨goToLower m, m, st.category⟩])
        ∧ (st.keyword = false ∨ m ∈ st.seen → st' = st) := by
  unfold processLine at hp
  simp only [hh, if_neg hne] at hp
  constructor
  · intro hn
    simp only [hn] at hp
    injection hp with hp
    exact hp.symm
  · intro m hm
    simp only [hm] at hp
    refine ⟨pipeFind_spec line m hm, ?_, ?_⟩
    · intro hk hs
      rw [if_pos ⟨hk, hs⟩] at hp
      injection hp with hp
      rw [← hp]
    · intro hor
      have hcond : ¬ (st.keyword = true ∧ m ∉ st.seen) := by
        rintro ⟨hk, hs⟩
        rcases hor with h | h
        · rw [hk] at h; cases h
        · exact hs h
      rw [if_neg hcond] at hp
      injection hp with hp
      exact hp.symm

/-- C7: the generator is deterministic — the whole run, output bytes
included, is a function of the input stream alone. -/
theorem run_deterministic (i1 i2 : Input) (h : i1 = i2) : run i1 = run i2 := by
  rw [h]

/-- C8: when the scan phase fails (unknown header or read error), the
run fails with that error and writes nothing to the output stream. -/
theorem scan_error_means_no_output (inp : Input) (e : Err)
    (h : scanInput inp = .error e) : run inp = (.error e, "") := by
  unfold run
  simp only [h]

/-- C9: a non-empty whitespace-only line inside a section neither ends
the section nor records an entry: the state is unchanged and the rest of
the input is scanned exactly as if the line were absent. -/
theorem whitespace_line_keeps_section (st : ScanState) (line : String) (rest : List String)
    (hne : line ≠ "") (hws : ∀ c ∈ line.data, c = ' ' ∨ c = '\t') :
    processLine st line = .ok st ∧ scanLines st (line :: rest) = scanLines st rest := by
  have hup : ∀ c ∈ line.data, isUpperAZ c = false := by
    intro c hc
    rcases hws c hc with rfl | rfl <;> rfl
  have hh : findHeaderMatch line = none := by
    cases hfm : findHeaderMatch line with
    | none => rfl
    | some m =>
      exfalso
      have hsome : (findHeaderMatch line).isSome = true := by rw [hfm]; rfl
      obtain ⟨s, r, hsr⟩ := (findHeaderMatch_isSome_iff line).mp hsome
      have hu : '_' ∈ line.data := by
        rw [hsr]
        exact List.mem_append_left r (List.mem_append_right s (by decide))
      rcases hws '_' hu with h | h <;> exact absurd h (by decide)
  have h1 := processLine_no_upper st line hh hne hup
  refine ⟨h1, ?_⟩
  simp only [scanLines, h1]

/-- C10: token extraction fires only on ASCII uppercase letters: a
non-empty non-header line whose characters include no ASCII uppercase
letter (all-lowercase tokens, or tokens led by a non-ASCII uppercase
letter) is ignored and contributes no entry. -/
theorem no_uppercase_line_ignored (st : ScanState) (line : String)
    (hh : findHeaderMatch line = none) (hne : line ≠ "")
    (hup : ∀ c ∈ line.data, isUpperAZ c = false) :
    processLine st line = .ok st :=
  processLine_no_upper st line hh hne hup

/-! ### Witnesses -/

theorem generator_output_sorted_witness :
    List.Pairwise (fun a b => strLt a.Match.data b.Match.data = true)
      (sortEntries [⟨"select", "SELECT", "R"⟩, ⟨"where", "WHERE", "R"⟩,
        ⟨"name", "NAME", "U"⟩]) :=
  generator_output_sorted exampleInput
    [⟨"select", "SELECT", "R"⟩, ⟨"where", "WHERE", "R"⟩, ⟨"name", "NAME", "U"⟩] (by rfl)

theorem match_dedup_first_wins_witness :
    (((⟨true, "U", ["NAME", "SELECT"],
        [⟨"select", "SELECT", "R"⟩, ⟨"name", "NAME", "U"⟩]⟩ : ScanState).data.map
          Entry.Match).Nodup)
    ∧ ∃ t, (⟨true, "U", ["NAME", "SELECT"],
        [⟨"select", "SELECT", "R"⟩, ⟨"name", "NAME", "U"⟩]⟩ : ScanState).data
          = (⟨true, "R", ["SELECT"], [⟨"select", "SELECT", "R"⟩]⟩ : ScanState).data ++ t :=
  match_dedup_first_wins ["reserved_keyword:", "SELECT"]
    ["", "unreserved_keyword:", "SELECT", "NAME"]
    ⟨true, "R", ["SELECT"], [⟨"select", "SELECT", "R"⟩]⟩
    ⟨true, "U", ["NAME", "SELECT"], [⟨"select", "SELECT", "R"⟩, ⟨"name", "NAME", "U"⟩]⟩
    (by rfl) (by rfl)

theorem lower_keys_unique_of_case_distinct_witness :
    ((sortEntries [⟨"select", "SELECT", "R"⟩, ⟨"where", "WHERE", "R"⟩,
        ⟨"name", "NAME", "U"⟩]).map Entry.Lower).Nodup :=
  lower_keys_unique_of_case_distinct exampleInput
    [⟨"select", "SELECT", "R"⟩, ⟨"where", "WHERE", "R"⟩, ⟨"name", "NAME", "U"⟩]
    (by rfl) (by decide)

theorem header_detection_witness :
    processLine initState "foo_keyword:" = .error (.unknownKeywordType "foo_keyword:") :=
  ((header_detection initState "foo_keyword:").2 "foo_keyword:" (by rfl)).2 (by rfl)

theorem token_extraction_witness :
    ((⟨true, "R", ["SELECT"], [⟨"select", "SELECT", "R"⟩]⟩ : ScanState).data
        = (⟨true, "R", [], []⟩ : ScanState).data ++ [⟨"select", "SELECT", "R"⟩]) :=
  ((token_extraction ⟨true, "R", [], []⟩ "| SELECT"
      ⟨true, "R", ["SELECT"], [⟨"select", "SELECT", "R"⟩]⟩
      (by rfl) (by decide) (by rfl)).2 "SELECT" (by rfl)).2.1 (by rfl) (by decide)

theorem run_deterministic_witness :
    run ⟨["reserved_keyword:", "CHECK"], none⟩ = run ⟨["reserved_keyword:", "CHECK"], none⟩ :=
  run_deterministic ⟨["reserved_keyword:", "CHECK"], none⟩
    ⟨["reserved_keyword:", "CHECK"], none⟩ rfl

theorem scan_error_means_no_output_witness :
    run ⟨["reserved_keyword:"], some "device error"⟩ =
      (.error (.readError "device error"), "") :=
  scan_error_means_no_output ⟨["reserved_keyword:"], some "device error"⟩
    (.readError "device error") (by rfl)

theorem whitespace_line_keeps_section_witness :
    processLine ⟨true, "R", [], []⟩ " " = .ok ⟨true, "R", [], []⟩
    ∧ scanLines ⟨true, "R", [], []⟩ [" ", "SELECT"] =
        scanLines ⟨true, "R", [], []⟩ ["SELECT"] :=
  whitespace_line_keeps_section ⟨true, "R", [], []⟩ " " ["SELECT"]
    (by decide) (by decide)

theorem no_uppercase_line_ignored_witness :
    processLine ⟨true, "R", [], []⟩ "École" = .ok ⟨true, "R", [], []⟩ :=
  no_uppercase_line_ignored ⟨true, "R", [], []⟩ "École"
    (by rfl) (by decide) (by decide)

end AllKeywords
